import Mathlib

/- Shallow embedding of the LinXup intelligent link checker core
   (source file src/linxup-checker.ts together with the persistence
   gateway in the database module).  External collaborators that are not
   part of the repository (the Linkinator crawler, the Gemini analyzer,
   the WHATWG URL parser of the platform, the HTTP fetch primitive and
   the PostgreSQL driver) are modelled as oracles supplied through an
   environment record; every fallible oracle returns an Except value,
   which models a JavaScript throw from an awaited call. -/

/-- Error value thrown by an external collaborator; it carries the
message field that the orchestrator reads when marking a scan failed. -/
structure Err where
  message : String
  deriving DecidableEq, Repr

/-- Resolution state of a crawled link, mirroring the LinkState
enumeration of the crawler interface. -/
inductive LinkState where
  | broken
  | ok
  | skipped
  deriving DecidableEq, Repr

/-- One crawl finding, mirroring the LinkResult shape of the crawler
interface: url, optional parent page, optional HTTP status, state. -/
structure LinkResult where
  url : String
  parent : Option String
  status : Option Int
  state : LinkState
  deriving DecidableEq, Repr

/-- Output of the crawl collaborator, mirroring CrawlResult. -/
structure CrawlResult where
  passed : Bool
  links : List LinkResult
  deriving DecidableEq, Repr

/-- Row returned by Database.createScanResult; only the id is read by
the orchestrator. -/
structure ScanRecord where
  id : Nat
  deriving DecidableEq, Repr

/-- Input handed to the AI analyzer, mirroring BrokenLinkInput. -/
structure BrokenLinkInput where
  brokenUrl : String
  statusCode : Option Int
  foundOnUrl : String
  linkText : Option String
  htmlContext : Option String
  surroundingText : Option String
  deriving DecidableEq, Repr

/-- Structured analysis of one broken link, mirroring
LinkAnalysisResult of the analyzer interface. -/
structure LinkAnalysisResult where
  intendedDestination : String
  linkPurpose : String
  importance : String
  businessImpact : String
  suggestedFixes : List String
  reasoning : String
  priorityScore : Int
  deriving DecidableEq, Repr

/-- Enriched finding collected by the orchestrator, mirroring
BrokenLinkWithAI. -/
structure BrokenLinkWithAI where
  url : String
  statusCode : Option Int
  foundOn : String
  linkText : Option String
  htmlContext : Option String
  aiAnalysis : LinkAnalysisResult
  dbId : Nat
  deriving DecidableEq, Repr

/-- Aggregate result of a scan, mirroring IntelligentScanResult (the
spread of the crawl result contributes the passed flag and the link
list). -/
structure IntelligentScanResult where
  passed : Bool
  links : List LinkResult
  scanId : Nat
  websiteId : Nat
  totalLinks : Nat
  brokenLinksCount : Nat
  healthScore : Int
  brokenLinksWithAI : List BrokenLinkWithAI
  scanDuration : Nat
  deriving DecidableEq, Repr

/-- JavaScript expression x shortCircuitOr null for a nullable number:
the number 0 is falsy, so it collapses to null as well. -/
def jsNumOrNull (x : Option Int) : Option Int :=
  match x with
  | some v => if v = 0 then none else some v
  | none => none

/-- JavaScript expression x shortCircuitOr d for a nullable string: the
empty string is falsy, so it falls back to d as well. -/
def jsStrOrDefault (x : Option String) (d : String) : String :=
  match x with
  | some s => if s = "" then d else s
  | none => d

/- Translation of extractLinkText.  The WHATWG URL constructor is
platform code outside the repository, so the function is modelled on the
outcome of that parse: none models a parse failure (the catch branch of
the source), some pathname models success. -/

/-- Character replacement of the regex that maps every dash and
underscore to a space. -/
def jsCharReplace (c : Char) : Char :=
  if c = '-' ∨ c = '_' then ' ' else c

/-- Decides whether the first list is an initial run of the second. -/
def beginsWithChars : List Char → List Char → Bool
  | [], _ => true
  | _ :: _, [] => false
  | c :: cs, x :: xs => (c = x) && beginsWithChars cs xs

/-- Decides whether the first list is a final run of the second. -/
def endsWithChars (suf s : List Char) : Bool :=
  beginsWithChars suf.reverse s.reverse

/-- Characters of the extension .html used by the trailing-extension
regex of the source. -/
def extHtml : List Char := ['.', 'h', 't', 'm', 'l']

/-- Characters of the extension .htm. -/
def extHtm : List Char := ['.', 'h', 't', 'm']

/-- Characters of the extension .php. -/
def extPhp : List Char := ['.', 'p', 'h', 'p']

/-- Removal of one trailing .html, .htm or .php extension, as performed
by the anchored regex replace of the source. -/
def stripExt (s : List Char) : List Char :=
  if endsWithChars extHtml s then s.take (s.length - 5)
  else if endsWithChars extHtm s then s.take (s.length - 4)
  else if endsWithChars extPhp s then s.take (s.length - 4)
  else s

/-- Split of a character list on a separator, keeping empty pieces,
with the semantics of the JavaScript string split method. -/
def splitOnChar (sep : Char) (l : List Char) : List (List Char) :=
  l.foldr
    (fun c acc =>
      if c = sep then [] :: acc
      else
        match acc with
        | [] => [[c]]
        | w :: ws => (c :: w) :: ws)
    [[]]

/-- Capitalization of one word: upper-case the first character, keep
the rest, as in charAt zero toUpperCase plus slice one. -/
def capitalizeWord : List Char → List Char
  | [] => []
  | c :: rest => c.toUpper :: rest

/-- Split on spaces, capitalize each word, join with spaces. -/
def titleCaseWords (s : List Char) : List Char :=
  List.intercalate [' '] ((splitOnChar ' ' s).map capitalizeWord)

/-- Translation of extractLinkText in source order: take the pathname,
split on slash, drop empty segments, take the last segment (defaulting
to Home), replace dashes and underscores with spaces, strip a trailing
extension, then title-case.  A parse failure returns the literal
Link. -/
def extractLinkText (parsedPath : Option String) : String :=
  match parsedPath with
  | none => "Link"
  | some pathname =>
    let segments := (splitOnChar '/' pathname.toList).filter (fun s => !s.isEmpty)
    let lastSegment :=
      match segments.getLast? with
      | some s => s
      | none => "Home".toList
    (titleCaseWords (stripExt (lastSegment.map jsCharReplace))).asString

/-- Pipeline in the order the specification states it: strip the
trailing extension first, then replace dashes and underscores with
spaces, then title-case. -/
def extractLinkTextSpec (parsedPath : Option String) : String :=
  match parsedPath with
  | none => "Link"
  | some pathname =>
    let segments := (splitOnChar '/' pathname.toList).filter (fun s => !s.isEmpty)
    let lastSegment :=
      match segments.getLast? with
      | some s => s
      | none => "Home".toList
    (titleCaseWords ((stripExt lastSegment).map jsCharReplace)).asString

/- Translation of checkWaybackMachine.  The single HTTP fetch is
platform code; its outcome is modelled by FetchOutcome: a transport
error (a rejected fetch promise), or a response with its ok flag and
the outcome of parsing the body as JSON. -/

/-- Closest snapshot object of the availability response body. -/
structure WaybackClosest where
  url : Option String
  available : Option Bool
  deriving DecidableEq, Repr

/-- Snapshot container of the availability response body. -/
structure WaybackSnapshots where
  closest : Option WaybackClosest
  deriving DecidableEq, Repr

/-- Body of the archive availability response. -/
structure WaybackBody where
  archived_snapshots : Option WaybackSnapshots
  deriving DecidableEq, Repr

/-- Outcome of the fetch of the availability endpoint. -/
inductive FetchOutcome where
  | transportError (message : String)
  | response (ok : Bool) (body : Except Err WaybackBody)

/-- Translation of checkWaybackMachine.  A transport error or a JSON
parse failure lands in the catch branch and yields none; a non-ok
response yields none; the snapshot url is returned only when the
available flag is truthy, and the final shortCircuitOr null turns a
missing or empty url into none.  The function is total: no branch
throws. -/
def checkWaybackMachine (fetched : FetchOutcome) : Option String :=
  match fetched with
  | .transportError _ => none
  | .response ok body =>
    if !ok then none
    else
      match body with
      | .error _ => none
      | .ok data =>
        match data.archived_snapshots with
        | none => none
        | some snaps =>
          match snaps.closest with
          | none => none
          | some closest =>
            if closest.available.getD false then
              match closest.url with
              | some u => if u = "" then none else some u
              | none => none
            else none

/-- Characterization of the wayback check after the correction: the
snapshot url is returned exactly when the response is ok, the body
parses, the available flag equals true, and the url field is present
and nonempty. -/
def waybackSpecResult : FetchOutcome → Option String
  | .response true (.ok body) =>
    match body.archived_snapshots with
    | some snaps =>
      match snaps.closest with
      | some closest =>
        match closest.available, closest.url with
        | some true, some u => if u = "" then none else some u
        | _, _ => none
      | none => none
    | none => none
  | _ => none

/-- Rounding of the JavaScript Math.round applied to an exact value:
floor of the argument plus one half (round half toward positive
infinity).  Used to state the exact-arithmetic formula of the
specification, against which the double-based source computation is
compared. -/
def jsRound (q : ℚ) : ℤ :=
  Int.floor (q + 1 / 2)

/- IEEE-754 binary64 model for calculateHealthScore.  JavaScript
numbers are binary64 doubles, and every finite double is a dyadic
rational sig times 2 to the exp; each arithmetic operation of the
source computes the exact rational result and rounds it to the nearest
representable double, ties to even.  The model covers the finite
non-overflowing range, which the program never leaves: both arguments
are JavaScript array lengths, far below 2 to the 53. -/

/-- Finite binary64 value, the dyadic rational sig times 2 to the
exp. -/
structure Dyadic where
  sig : ℤ
  exp : ℤ
  deriving DecidableEq, Repr

/-- Floor of the base-two logarithm of a natural number, by bounded
halving; the fuel bound 4096 exceeds the bit length of every value the
modelled computation can produce. -/
def natLog2F : Nat → Nat → Nat
  | 0, _ => 0
  | fuel + 1, n => if n ≤ 1 then 0 else natLog2F fuel (n / 2) + 1

/-- Floor of the base-two logarithm of the fraction a over d, for
positive a and d: the bit-length estimate is off by at most one and is
corrected by one exact comparison. -/
def fracLog2 (a d : ℤ) : ℤ :=
  let e0 : ℤ := (natLog2F 4096 a.natAbs : ℤ) - (natLog2F 4096 d.natAbs : ℤ)
  if 0 ≤ e0 then (if d * 2 ^ e0.toNat ≤ a then e0 else e0 - 1)
  else (if d ≤ a * 2 ^ (-e0).toNat then e0 else e0 - 1)

/-- Quotient a over d rounded to the nearest integer, ties to even,
for nonnegative a and positive d. -/
def divRoundTiesEven (a d : ℤ) : ℤ :=
  let q := a / d
  let r := a % d
  if 2 * r < d then q
  else if d < 2 * r then q + 1
  else if q % 2 = 0 then q else q + 1

/-- Rounding of the exact fraction num over den (positive den) to the
nearest binary64 value, ties to even: normal numbers keep 53
significant bits, the exponent floor of minus 1022 gives the gradual
subnormal range. -/
def roundB64Frac (num den : ℤ) : Dyadic :=
  if num = 0 then ⟨0, 0⟩
  else
    let a := if num < 0 then -num else num
    let e := fracLog2 a den
    let ec := max e (-1022)
    let k : ℤ := 52 - ec
    let n :=
      if 0 ≤ k then divRoundTiesEven (a * 2 ^ k.toNat) den
      else divRoundTiesEven a (den * 2 ^ (-k).toNat)
    ⟨if num < 0 then -n else n, ec - 52⟩

/-- Conversion of a natural number to a double, as when a JavaScript
array length enters arithmetic; exact below 2 to the 53. -/
def dyOfNat (n : ℕ) : Dyadic := roundB64Frac (n : ℤ) 1

/-- Correctly rounded double division (nonzero divisor). -/
def dyDiv (x y : Dyadic) : Dyadic :=
  let de := x.exp - y.exp
  let num := if 0 ≤ de then x.sig * 2 ^ de.toNat else x.sig
  let den := if 0 ≤ de then y.sig else y.sig * 2 ^ (-de).toNat
  if den < 0 then roundB64Frac (-num) (-den) else roundB64Frac num den

/-- Correctly rounded double subtraction. -/
def dySub (x y : Dyadic) : Dyadic :=
  let emin := min x.exp y.exp
  let sig := x.sig * 2 ^ (x.exp - emin).toNat - y.sig * 2 ^ (y.exp - emin).toNat
  if 0 ≤ emin then roundB64Frac (sig * 2 ^ emin.toNat) 1
  else roundB64Frac sig (2 ^ (-emin).toNat)

/-- Correctly rounded double multiplication. -/
def dyMul (x y : Dyadic) : Dyadic :=
  let e := x.exp + y.exp
  if 0 ≤ e then roundB64Frac (x.sig * y.sig * 2 ^ e.toNat) 1
  else roundB64Frac (x.sig * y.sig) (2 ^ (-e).toNat)

/-- Math.round of a finite double: the nearest integer, half toward
positive infinity, computed exactly on the dyadic value. -/
def dyMathRound (x : Dyadic) : ℤ :=
  if 0 ≤ x.exp then x.sig * 2 ^ x.exp.toNat
  else
    let d := (2 : ℤ) ^ (-x.exp).toNat
    Int.fdiv (2 * x.sig + d) (2 * d)

/-- Translation of calculateHealthScore: 100 when no links were
checked, otherwise Math.round of the binary64 evaluation of (1 minus
broken over total) times 100, clamped to the interval from 0 to 100.
Every step carries the double rounding of the source: the division,
the subtraction from the exact constant 1 and the multiplication by
the exact constant 100 are each correctly rounded. -/
def calculateHealthScore (totalLinks brokenLinks : ℕ) : ℤ :=
  if totalLinks = 0 then 100
  else
    let ratio := dyDiv (dyOfNat brokenLinks) (dyOfNat totalLinks)
    let score := dyMathRound (dyMul (dySub (dyOfNat 1) ratio) (dyOfNat 100))
    max 0 (min 100 score)

/- Translation of checkWithIntelligence.  All awaited collaborator
calls are oracles in an environment record; the per-iteration index
selects the outcome of the call made in that iteration of the loop over
broken links.  Gateway mutations and the rate-limit delay are recorded
in an event trace. -/

/-- Observable effects of the orchestrator that the claims speak about:
the rate-limit delay, the successful completion update of the scan row,
and the successful failure update of the scan row. -/
inductive Event where
  | delayMs (ms : Nat)
  | scanCompleted
  | scanMarkedFailed (message : String)
  deriving DecidableEq, Repr

/-- Selects the two terminal gateway mutations of a scan row. -/
def isTerminalEvent : Event → Bool
  | .delayMs _ => false
  | .scanCompleted => true
  | .scanMarkedFailed _ => true

/-- Environment of one orchestrator run: the outcomes of every external
call it may make.  parsePath models the WHATWG URL constructor applied
to a link url (none models a parse throw); the per-link oracles are
indexed by the iteration number of the loop over broken links. -/
structure Env where
  parsePath : String → Option String
  createScanResult : Except Err ScanRecord
  check : Except Err CrawlResult
  analyzeContext : Nat → BrokenLinkInput → Except Err LinkAnalysisResult
  fetchWayback : Nat → FetchOutcome
  createBrokenLink : Nat → Except Err Nat
  updateBrokenLinkWithAI : Nat → Except Err Unit
  completeScanResult : Except Err Unit
  failUpdate : Except Err Unit
  elapsedMs : Nat

/-- Caller-supplied options; only the path is read by the modelled
code, as the fallback found-on url. -/
structure CheckOptionsModel where
  path : String

/-- Translation of extractContext: link text from the url, a fixed
anchor snippet, no surrounding text. -/
structure ExtractedContext where
  linkText : String
  htmlContext : String

/-- Context extraction for one link; the source never throws here and
always leaves surroundingText undefined. -/
def extractContext (env : Env) (link : LinkResult) : ExtractedContext :=
  { linkText := extractLinkText (env.parsePath link.url),
    htmlContext := "<a href=\"" ++ link.url ++ "\">Link</a>" }

/-- Input record the orchestrator builds for the analyzer call of one
iteration. -/
def mkAiInput (env : Env) (path : String) (link : LinkResult) : BrokenLinkInput :=
  { brokenUrl := link.url,
    statusCode := jsNumOrNull link.status,
    foundOnUrl := jsStrOrDefault link.parent path,
    linkText := some (extractContext env link).linkText,
    htmlContext := some (extractContext env link).htmlContext,
    surroundingText := none }

/-- Wayback step of one iteration: when the lookup is enabled and the
archive check returns a snapshot url, unshift it onto the suggested-fix
list of the analysis. -/
def withWayback (env : Env) (includeWayback : Bool) (i : Nat)
    (firstAnalysis : LinkAnalysisResult) : LinkAnalysisResult :=
  if includeWayback then
    match checkWaybackMachine (env.fetchWayback i) with
    | some waybackUrl =>
      { firstAnalysis with suggestedFixes := waybackUrl :: firstAnalysis.suggestedFixes }
    | none => firstAnalysis
  else firstAnalysis

/-- Finding record pushed onto the in-memory result list after the
persistence update of one iteration succeeded. -/
def mkFinding (env : Env) (path : String) (link : LinkResult)
    (analysis : LinkAnalysisResult) (recordId : Nat) : BrokenLinkWithAI :=
  { url := link.url,
    statusCode := jsNumOrNull link.status,
    foundOn := jsStrOrDefault link.parent path,
    linkText := some (extractContext env link).linkText,
    htmlContext := some (extractContext env link).htmlContext,
    aiAnalysis := analysis,
    dbId := recordId }

/-- One iteration of the loop over broken links, from context
extraction through the persistence update; none models the catch branch
of the per-link try (the iteration threw and the link is skipped). -/
def processLink (env : Env) (path : String) (includeWayback : Bool)
    (i : Nat) (link : LinkResult) : Option BrokenLinkWithAI :=
  match env.analyzeContext i (mkAiInput env path link) with
  | .error _ => none
  | .ok firstAnalysis =>
    match env.createBrokenLink i with
    | .error _ => none
    | .ok recordId =>
      match env.updateBrokenLinkWithAI i with
      | .error _ => none
      | .ok _ =>
        some (mkFinding env path link
          (withWayback env includeWayback i firstAnalysis) recordId)

/-- Loop over the broken links: events emitted and findings collected.
The delay is executed inside the try, after the push and only when more
links remain, so a thrown iteration emits no delay. -/
def processLoop (env : Env) (path : String) (includeWayback : Bool) :
    Nat → List LinkResult → List Event × List BrokenLinkWithAI
  | _, [] => ([], [])
  | i, link :: rest =>
    match processLink env path includeWayback i link with
    | some finding =>
      let delays : List Event := if rest.isEmpty then [] else [Event.delayMs 1000]
      let tail := processLoop env path includeWayback (i + 1) rest
      (delays ++ tail.1, finding :: tail.2)
    | none => processLoop env path includeWayback (i + 1) rest

/-- Findings of the iterations that completed without a throw, in
order. -/
def collectFindings (env : Env) (path : String) (includeWayback : Bool) :
    Nat → List LinkResult → List BrokenLinkWithAI
  | _, [] => []
  | i, link :: rest =>
    match processLink env path includeWayback i link with
    | some finding => finding :: collectFindings env path includeWayback (i + 1) rest
    | none => collectFindings env path includeWayback (i + 1) rest

/-- Delay events of the loop: one thousand milliseconds after every
non-final iteration that completed without a throw. -/
def expectedDelays (env : Env) (path : String) (includeWayback : Bool) :
    Nat → List LinkResult → List Event
  | _, [] => []
  | i, link :: rest =>
    (if (processLink env path includeWayback i link).isSome && !rest.isEmpty
      then [Event.delayMs 1000] else [])
      ++ expectedDelays env path includeWayback (i + 1) rest

/-- Translation of checkWithIntelligence: create the scan row, crawl,
loop over the broken links with per-link failure isolation, compute the
health score, complete the scan row, return the aggregate; the catch
branch marks the scan failed with the message of the caught error and
rethrows it. -/
def checkWithIntelligence (env : Env) (options : CheckOptionsModel)
    (websiteId : Nat) (includeWayback : Bool) :
    List Event × Except Err IntelligentScanResult :=
  match env.createScanResult with
  | .error e => ([], .error e)
  | .ok scanRecord =>
    match env.check with
    | .error e =>
      match env.failUpdate with
      | .error e2 => ([], .error e2)
      | .ok _ => ([Event.scanMarkedFailed e.message], .error e)
    | .ok crawlResult =>
      let brokenLinks := crawlResult.links.filter (fun l => l.state = LinkState.broken)
      let loopOut := processLoop env options.path includeWayback 0 brokenLinks
      let healthScore := calculateHealthScore crawlResult.links.length brokenLinks.length
      match env.completeScanResult with
      | .error e =>
        match env.failUpdate with
        | .error e2 => (loopOut.1, .error e2)
        | .ok _ => (loopOut.1 ++ [Event.scanMarkedFailed e.message], .error e)
      | .ok _ =>
        (loopOut.1 ++ [Event.scanCompleted],
          .ok
            { passed := crawlResult.passed,
              links := crawlResult.links,
              scanId := scanRecord.id,
              websiteId := websiteId,
              totalLinks := crawlResult.links.length,
              brokenLinksCount := brokenLinks.length,
              healthScore := healthScore,
              brokenLinksWithAI := loopOut.2,
              scanDuration := env.elapsedMs })

/-- Lengths of the suggested-fix lists carried by the findings of a run
outcome; an error outcome carries no finding. -/
def findingFixLengths (out : Except Err IntelligentScanResult) : List Nat :=
  match out with
  | .ok r => r.brokenLinksWithAI.map (fun f => f.aiAnalysis.suggestedFixes.length)
  | .error _ => []

/-- Finding list of a successful run outcome; none when the run
re-raised an error. -/
def okFindings : Except Err IntelligentScanResult → Option (List BrokenLinkWithAI)
  | .ok r => some r.brokenLinksWithAI
  | .error _ => none

/- Translation of generateReport and its helpers.  The renderer is a
pure function of the scan result; the sort of the display copy models
the ECMAScript stable Array sort with the comparator that subtracts
priority scores (descending order, ties keep the original order). -/

/-- String of n copies of one character, as in the repeat method. -/
def repeatChar (c : Char) (n : Nat) : String :=
  String.mk (List.replicate n c)

/-- Seconds with two decimals for a millisecond duration, modelling
toFixed applied to the duration divided by a thousand; the binary
double rounding of toFixed is modelled as decimal round half up, which
no claim depends on. -/
def jsToFixed2 (ms : Nat) : String :=
  let centis := (ms + 5) / 10
  toString (centis / 100) ++ "." ++ (if centis % 100 < 10 then "0" else "")
    ++ toString (centis % 100)

/-- Display of a nullable status code: the falsy values null and 0
render as Unknown. -/
def statusDisplay (statusCode : Option Int) : String :=
  match statusCode with
  | some s => if s = 0 then "Unknown" else toString s
  | none => "Unknown"

/-- Health emoji thresholds of getHealthEmoji. -/
def getHealthEmoji (score : Int) : String :=
  if score ≥ 95 then "🟢"
  else if score ≥ 80 then "🟡"
  else if score ≥ 60 then "🟠"
  else "🔴"

/-- Stable descending insertion by priority score: the element moves
left past strictly smaller scores only, so equal scores keep their
relative order. -/
def insertByPriorityDesc (x : BrokenLinkWithAI) :
    List BrokenLinkWithAI → List BrokenLinkWithAI
  | [] => [x]
  | y :: ys =>
    if y.aiAnalysis.priorityScore ≤ x.aiAnalysis.priorityScore then x :: y :: ys
    else y :: insertByPriorityDesc x ys

/-- Stable sort by priority score descending, modelling the ECMAScript
stable Array sort with comparator subtracting priority scores. -/
def sortFindings : List BrokenLinkWithAI → List BrokenLinkWithAI
  | [] => []
  | x :: xs => insertByPriorityDesc x (sortFindings xs)

/-- Summary block of the report: banner, counts, health score,
duration, scan id. -/
def reportSummaryCore (totalLinks brokenLinksCount : Nat) (healthScore : Int)
    (scanDuration scanId : Nat) : String :=
  "\n"
  ++ "╔" ++ repeatChar '═' 79 ++ "╗\n"
  ++ "║" ++ repeatChar ' ' 24 ++ "LinXup Intelligent Scan Report"
    ++ repeatChar ' ' 25 ++ "║\n"
  ++ "╚" ++ repeatChar '═' 79 ++ "╝\n"
  ++ "\n"
  ++ "📊 SCAN SUMMARY\n"
  ++ repeatChar '─' 80 ++ "\n"
  ++ "Total Links Checked:    " ++ toString totalLinks ++ "\n"
  ++ "Broken Links Found:     " ++ toString brokenLinksCount ++ "\n"
  ++ "Health Score:           " ++ toString healthScore ++ "/100 "
    ++ getHealthEmoji healthScore ++ "\n"
  ++ "Scan Duration:          " ++ jsToFixed2 scanDuration ++ "s\n"
  ++ "Database Scan ID:       " ++ toString scanId ++ "\n"
  ++ "\n"

/-- Summary block of the report for a scan result. -/
def reportSummaryBlock (r : IntelligentScanResult) : String :=
  reportSummaryCore r.totalLinks r.brokenLinksCount r.healthScore
    r.scanDuration r.scanId

/-- Block of one finding inside the report, at display position i. -/
def renderFinding (i : Nat) (link : BrokenLinkWithAI) : String :=
  let analysis := link.aiAnalysis
  "[" ++ toString (i + 1) ++ "] " ++ link.url ++ "\n"
  ++ "    Status: " ++ statusDisplay link.statusCode
    ++ " | Priority: " ++ toString analysis.priorityScore
    ++ "/100 | Importance: " ++ analysis.importance.toUpper ++ "\n"
  ++ "    Found On: " ++ link.foundOn ++ "\n"
  ++ (match link.linkText with
      | some t => if t = "" then "" else "    Link Text: \"" ++ t ++ "\"\n"
      | none => "")
  ++ "\n"
  ++ "    📍 Intended: " ++ analysis.intendedDestination ++ "\n"
  ++ "    🎯 Purpose: " ++ analysis.linkPurpose ++ "\n"
  ++ "    💼 Business Impact: " ++ analysis.businessImpact ++ "\n"
  ++ "    💡 Reasoning: " ++ analysis.reasoning ++ "\n"
  ++ (if analysis.suggestedFixes.length > 0 then
        "\n    🔧 Suggested Fixes:\n"
          ++ String.join (analysis.suggestedFixes.map
              (fun fix => "       • " ++ fix ++ "\n"))
      else "")
  ++ "\n"

/-- Section listing the sorted findings. -/
def reportBrokenSection (sorted : List BrokenLinkWithAI) : String :=
  "🔴 BROKEN LINKS WITH AI ANALYSIS\n"
  ++ repeatChar '─' 80 ++ "\n\n"
  ++ String.join (sorted.enum.map (fun p => renderFinding p.1 p.2))

/-- Section shown when no broken link was found. -/
def reportNoBroken (totalLinks : Nat) : String :=
  "✅ NO BROKEN LINKS FOUND!\n"
  ++ "All " ++ toString totalLinks ++ " links are working perfectly.\n\n"

/-- Closing banner of the report. -/
def reportFooter : String :=
  repeatChar '═' 80 ++ "\n"
  ++ "Powered by LinXup - AI-Powered Link Monitoring\n"
  ++ repeatChar '═' 80 ++ "\n"

/-- Middle section of the report given the already sorted findings:
the broken section when any finding exists, else the all-clear
section. -/
def reportFindingsSection (sorted : List BrokenLinkWithAI) (totalLinks : Nat) : String :=
  if sorted.length > 0 then reportBrokenSection sorted
  else reportNoBroken totalLinks

/-- Translation of generateReport: summary block, then (when findings
exist) the finding blocks over a sorted copy of the finding list, then
the footer. -/
def generateReport (result : IntelligentScanResult) : String :=
  let sortedLinks := sortFindings result.brokenLinksWithAI
  reportSummaryBlock result
  ++ (if result.brokenLinksWithAI.length > 0 then reportBrokenSection sortedLinks
      else reportNoBroken result.totalLinks)
  ++ reportFooter

/- Heap model for the frame claim about generateReport.  JavaScript
arrays are reference values and the Array sort mutates its receiver in
place; the source sorts a spread copy of the finding list.  The heap
maps references to finding arrays, allocation returns a fresh
reference, and the scan result holds a reference to its finding
array. -/

/-- Store of finding arrays addressed by numeric references; next is
the first unused reference. -/
structure FindingsHeap where
  arrays : Nat → List BrokenLinkWithAI
  next : Nat

/-- Scan result whose finding list is a heap reference, with the scalar
fields the report reads. -/
structure ScanResultRef where
  scanId : Nat
  totalLinks : Nat
  brokenLinksCount : Nat
  healthScore : Int
  scanDuration : Nat
  findingsRef : Nat

/-- Allocation of a fresh array holding the given value. -/
def heapAlloc (h : FindingsHeap) (v : List BrokenLinkWithAI) : FindingsHeap × Nat :=
  ({ arrays := fun r => if r = h.next then v else h.arrays r, next := h.next + 1 },
    h.next)

/-- In-place overwrite of the array behind a reference. -/
def heapWrite (h : FindingsHeap) (ref : Nat) (v : List BrokenLinkWithAI) : FindingsHeap :=
  { h with arrays := fun r => if r = ref then v else h.arrays r }

/-- Translation of generateReport against the heap model: spread the
finding array into a fresh copy, sort the copy in place, render from
the copy, and return the report together with the final heap. -/
def generateReportRef (h : FindingsHeap) (r : ScanResultRef) : FindingsHeap × String :=
  let origLinks := h.arrays r.findingsRef
  let alloc := heapAlloc h origLinks
  let h1 := alloc.1
  let copyRef := alloc.2
  let h2 := heapWrite h1 copyRef (sortFindings (h1.arrays copyRef))
  (h2,
    reportSummaryCore r.totalLinks r.brokenLinksCount r.healthScore
        r.scanDuration r.scanId
      ++ (if origLinks.length > 0 then reportBrokenSection (h2.arrays copyRef)
          else reportNoBroken r.totalLinks)
      ++ reportFooter)

/- Concrete environments used to instantiate the theorems on closed
inputs. -/

/-- Analysis stub returned by the analyzer oracle in the isolation
scenario; the index makes the findings distinguishable. -/
def analysisStub (n : Nat) : LinkAnalysisResult :=
  { intendedDestination := "destination " ++ toString n,
    linkPurpose := "purpose",
    importance := "medium",
    businessImpact := "impact",
    suggestedFixes := [],
    reasoning := "reasoning",
    priorityScore := 50 }

/-- Broken link stub for the concrete crawls. -/
def linkStub (u : String) : LinkResult :=
  { url := u,
    parent := some "https://site.test/page",
    status := some 404,
    state := LinkState.broken }

/-- Crawl with three broken links. -/
def crawlThree : CrawlResult :=
  { passed := false,
    links := [linkStub "https://site.test/one", linkStub "https://site.test/two",
      linkStub "https://site.test/three"] }

/-- Crawl with two broken links. -/
def crawlTwo : CrawlResult :=
  { passed := false,
    links := [linkStub "https://site.test/one", linkStub "https://site.test/two"] }

/-- Crawl with one broken link. -/
def crawlOne : CrawlResult :=
  { passed := false, links := [linkStub "https://site.test/one"] }

/-- Environment of the isolation scenario: three broken links, and the
persistence update of the second one (iteration index 1) throws; every
other collaborator call succeeds. -/
def envPersistFails : Env :=
  { parsePath := fun _ => some "/a/b",
    createScanResult := .ok { id := 3 },
    check := .ok crawlThree,
    analyzeContext := fun i _ => .ok (analysisStub i),
    fetchWayback := fun _ => .transportError "offline",
    createBrokenLink := fun i => .ok (100 + i),
    updateBrokenLinkWithAI := fun i =>
      if i = 1 then .error { message := "db write failed" } else .ok (),
    completeScanResult := .ok (),
    failUpdate := .ok (),
    elapsedMs := 10 }

/-- Environment of the delay-skip scenario: two broken links, and the
persistence update of the first one (the non-final iteration) throws. -/
def envDelaySkip : Env :=
  { parsePath := fun _ => some "/a/b",
    createScanResult := .ok { id := 4 },
    check := .ok crawlTwo,
    analyzeContext := fun i _ => .ok (analysisStub i),
    fetchWayback := fun _ => .transportError "offline",
    createBrokenLink := fun i => .ok (200 + i),
    updateBrokenLinkWithAI := fun i =>
      if i = 0 then .error { message := "db write failed" } else .ok (),
    completeScanResult := .ok (),
    failUpdate := .ok (),
    elapsedMs := 10 }

/-- Analysis carrying exactly three suggested fixes, the maximum the
analyzer contract allows. -/
def fixes3Analysis : LinkAnalysisResult :=
  { intendedDestination := "destination",
    linkPurpose := "purpose",
    importance := "high",
    businessImpact := "impact",
    suggestedFixes := ["https://f1.test", "https://f2.test", "https://f3.test"],
    reasoning := "reasoning",
    priorityScore := 70 }

/-- Closest snapshot returned by the archive service in the wayback
scenario. -/
def closestW : WaybackClosest :=
  { url := some "https://web.archive.org/web/2020/one", available := some true }

/-- Fetch outcome of the wayback scenario: an ok response whose body
marks the closest snapshot available. -/
def fetchW : FetchOutcome :=
  .response true (.ok { archived_snapshots := some { closest := some closestW } })

/-- Response body whose closest snapshot is marked available but whose
url field holds the empty string. -/
def emptyUrlBody : WaybackBody :=
  { archived_snapshots := some { closest := some { url := some "", available := some true } } }

/-- Environment of the wayback scenario: one broken link, an analysis
with three suggested fixes, and an available archive snapshot. -/
def envWayback : Env :=
  { parsePath := fun _ => some "/a/b",
    createScanResult := .ok { id := 5 },
    check := .ok crawlOne,
    analyzeContext := fun _ _ => .ok fixes3Analysis,
    fetchWayback := fun _ => fetchW,
    createBrokenLink := fun i => .ok (300 + i),
    updateBrokenLinkWithAI := fun _ => .ok (),
    completeScanResult := .ok (),
    failUpdate := .ok (),
    elapsedMs := 10 }

/-- Crawl error thrown in the fatal-crawl scenario. -/
def errBoom : Err := { message := "crawl exploded" }

/-- Environment of the fatal-crawl scenario: the scan row is created
and the crawl call throws. -/
def envCrawlFails : Env :=
  { parsePath := fun _ => none,
    createScanResult := .ok { id := 7 },
    check := .error errBoom,
    analyzeContext := fun _ _ => .error { message := "unused" },
    fetchWayback := fun _ => .transportError "unused",
    createBrokenLink := fun _ => .ok 0,
    updateBrokenLinkWithAI := fun _ => .ok (),
    completeScanResult := .ok (),
    failUpdate := .ok (),
    elapsedMs := 5 }

/-- Error thrown by scan-row creation in the creation-failure
scenario. -/
def errNoDb : Err := { message := "no database" }

/-- Environment of the creation-failure scenario: creating the scan row
itself throws. -/
def envCreateFails : Env :=
  { parsePath := fun _ => none,
    createScanResult := .error errNoDb,
    check := .ok crawlOne,
    analyzeContext := fun _ _ => .error { message := "unused" },
    fetchWayback := fun _ => .transportError "unused",
    createBrokenLink := fun _ => .ok 0,
    updateBrokenLinkWithAI := fun _ => .ok (),
    completeScanResult := .ok (),
    failUpdate := .ok (),
    elapsedMs := 5 }

/-- Options record shared by the concrete scenarios. -/
def optsW : CheckOptionsModel := { path := "https://site.test" }

/-- Finding stub stored in the concrete heap of the frame scenario. -/
def findingW : BrokenLinkWithAI :=
  { url := "https://site.test/one",
    statusCode := some 404,
    foundOn := "https://site.test/page",
    linkText := some "B",
    htmlContext := some "ctx",
    aiAnalysis := analysisStub 0,
    dbId := 100 }

/-- Heap of the frame scenario: one allocated finding array at
reference 0. -/
def heapW : FindingsHeap :=
  { arrays := fun r => if r = 0 then [findingW] else [], next := 1 }

/-- Scan result of the frame scenario, pointing at reference 0. -/
def refW : ScanResultRef :=
  { scanId := 3, totalLinks := 12, brokenLinksCount := 1, healthScore := 92,
    scanDuration := 2000, findingsRef := 0 }

/- Lemmas: the extension strip and the dash and underscore replacement
commute, because the replacement fixes every character of the three
extension patterns. -/

lemma beginsWithChars_map (f : Char → Char) :
    ∀ (e s : List Char), (∀ c ∈ e, ∀ x, f x = c ↔ x = c) →
      beginsWithChars e (s.map f) = beginsWithChars e s := by
  intro e
  induction e with
  | nil => intro s _; rfl
  | cons c cs ih =>
    intro s h
    cases s with
    | nil => rfl
    | cons x xs =>
      have hc : f x = c ↔ x = c := h c (by simp) x
      have hcs : ∀ d ∈ cs, ∀ x, f x = d ↔ x = d := by
        intro d hd x
        exact h d (by simp [hd]) x
      have hdec : (c = f x) = (c = x) :=
        propext ⟨fun h1 => (hc.mp h1.symm).symm, fun h1 => (hc.mpr h1.symm).symm⟩
      simp only [List.map_cons, beginsWithChars, ih xs hcs, hdec]

lemma endsWithChars_map (f : Char → Char) (e s : List Char)
    (h : ∀ c ∈ e, ∀ x, f x = c ↔ x = c) :
    endsWithChars e (s.map f) = endsWithChars e s := by
  unfold endsWithChars
  rw [← List.map_reverse]
  exact beginsWithChars_map f e.reverse s.reverse
    (by intro c hc x; exact h c (List.mem_reverse.mp hc) x)

lemma ext_chars_fixed (e : List Char) (h : ∀ c ∈ e, c ≠ ' ' ∧ c ≠ '-' ∧ c ≠ '_') :
    ∀ c ∈ e, ∀ x, jsCharReplace x = c ↔ x = c := by
  intro c hc x
  obtain ⟨hs, hd, hu⟩ := h c hc
  unfold jsCharReplace
  by_cases hx : x = '-' ∨ x = '_'
  · rw [if_pos hx]
    constructor
    · intro hcontra; exact absurd hcontra.symm hs
    · intro hxc
      rcases hx with h1 | h1
      · exact absurd (h1 ▸ hxc).symm hd
      · exact absurd (h1 ▸ hxc).symm hu
  · rw [if_neg hx]

lemma stripExt_map (s : List Char) :
    stripExt (s.map jsCharReplace) = (stripExt s).map jsCharReplace := by
  have hl : ∀ c ∈ extHtml, c ≠ ' ' ∧ c ≠ '-' ∧ c ≠ '_' := by decide
  have hm : ∀ c ∈ extHtm, c ≠ ' ' ∧ c ≠ '-' ∧ c ≠ '_' := by decide
  have hp : ∀ c ∈ extPhp, c ≠ ' ' ∧ c ≠ '-' ∧ c ≠ '_' := by decide
  unfold stripExt
  rw [endsWithChars_map jsCharReplace extHtml s (ext_chars_fixed extHtml hl),
    endsWithChars_map jsCharReplace extHtm s (ext_chars_fixed extHtm hm),
    endsWithChars_map jsCharReplace extPhp s (ext_chars_fixed extPhp hp),
    List.length_map]
  split
  · rw [List.map_take]
  · split
    · rw [List.map_take]
    · split
      · rw [List.map_take]
      · rfl

/-- Claim C7: for every url, the link-text extractor returns the label
obtained by taking the path of the url, splitting on slash, dropping
empty segments, taking the last segment (defaulting to Home if there is
none), stripping a trailing .html, .htm or .php extension, replacing
dashes and underscores with spaces, and title-casing each word; and on
every input whose url parse fails it returns the literal Link rather
than throwing.  The source applies the character replacement before the
extension strip; the two orders agree on every input, so the label the
specification describes is exactly the one the source computes. -/
theorem extractLinkText_eq_spec (p : Option String) :
    extractLinkText p = extractLinkTextSpec p := by
  cases p with
  | none => rfl
  | some pathname => simp only [extractLinkText, extractLinkTextSpec, stripExt_map]

/- Lemmas about the loop over broken links. -/

lemma processLoop_eq (env : Env) (path : String) (wb : Bool) :
    ∀ (links : List LinkResult) (i : Nat),
      processLoop env path wb i links
        = (expectedDelays env path wb i links, collectFindings env path wb i links) := by
  intro links
  induction links with
  | nil => intro i; rfl
  | cons link rest ih =>
    intro i
    simp only [processLoop, expectedDelays, collectFindings]
    cases hx : processLink env path wb i link with
    | some finding =>
      simp only [ih (i + 1), Option.isSome_some, Bool.true_and]
      cases rest <;> simp
    | none => simp [ih (i + 1)]

lemma expectedDelays_all_delay (env : Env) (path : String) (wb : Bool) :
    ∀ (links : List LinkResult) (i : Nat) (e : Event),
      e ∈ expectedDelays env path wb i links → e = Event.delayMs 1000 := by
  intro links
  induction links with
  | nil => intro i e he; simp [expectedDelays] at he
  | cons link rest ih =>
    intro i e he
    simp only [expectedDelays, List.mem_append] at he
    rcases he with he | he
    · by_cases hc : (processLink env path wb i link).isSome && !rest.isEmpty
      · rw [if_pos hc] at he; simpa using he
      · rw [if_neg hc] at he; simp at he
    · exact ih (i + 1) e he

lemma loop_no_terminal (env : Env) (path : String) (wb : Bool)
    (links : List LinkResult) (i : Nat) :
    (processLoop env path wb i links).1.filter isTerminalEvent = [] := by
  rw [processLoop_eq]
  rw [List.filter_eq_nil_iff]
  intro a ha
  rw [expectedDelays_all_delay env path wb links i a ha]
  simp [isTerminalEvent]

/-- Claim C3: terminal mutations of one scan row are mutually exclusive
and final within one run.  The run trace contains at most one terminal
gateway mutation, so in particular a run that has recorded the scan as
completed never afterwards marks it failed.  A gateway call that throws
is modelled as not having recorded its mutation. -/
theorem scanTerminalMutationsExclusive (env : Env) (options : CheckOptionsModel)
    (websiteId : Nat) (includeWayback : Bool) :
    ((checkWithIntelligence env options websiteId includeWayback).1.filter
      isTerminalEvent).length ≤ 1 := by
  unfold checkWithIntelligence
  cases h1 : env.createScanResult with
  | error e => simp
  | ok scanRecord =>
    cases h2 : env.check with
    | error e =>
      cases h4 : env.failUpdate with
      | error e2 => simp
      | ok u => simp [isTerminalEvent]
    | ok crawlResult =>
      cases h3 : env.completeScanResult with
      | error e =>
        cases h4 : env.failUpdate with
        | error e2 => simp [loop_no_terminal]
        | ok u => simp [List.filter_append, loop_no_terminal, isTerminalEvent]
      | ok u => simp [List.filter_append, loop_no_terminal, isTerminalEvent]

/-- Claim C4: a crawl failure after the scan row was created marks the
scan failed with the message of the thrown error and re-raises the same
error with no result, while a failure of scan-row creation itself
propagates immediately with no failed mark.  The first part assumes the
failure update of the gateway itself succeeds, since otherwise nothing
can be recorded. -/
theorem fatalCrawlFailure (env : Env) (options : CheckOptionsModel)
    (websiteId : Nat) (includeWayback : Bool) :
    (∀ (scanRecord : ScanRecord) (e : Err),
      env.createScanResult = Except.ok scanRecord →
      env.check = Except.error e →
      env.failUpdate = Except.ok () →
      checkWithIntelligence env options websiteId includeWayback
        = ([Event.scanMarkedFailed e.message], Except.error e))
    ∧ (∀ e : Err,
      env.createScanResult = Except.error e →
      checkWithIntelligence env options websiteId includeWayback
        = ([], Except.error e)) := by
  constructor
  · intro scanRecord e h1 h2 h3
    simp [checkWithIntelligence, h1, h2, h3]
  · intro e h1
    simp [checkWithIntelligence, h1]

/-- Witness for claim C4: in the concrete crawl-failure environment the
run marks the scan failed with the crawl error message and rethrows
that error, and in the concrete creation-failure environment the run
propagates the creation error with no mark at all. -/
theorem fatalCrawlFailure_witness :
    checkWithIntelligence envCrawlFails optsW 1 false
      = ([Event.scanMarkedFailed errBoom.message], Except.error errBoom)
    ∧ checkWithIntelligence envCreateFails optsW 1 false
      = ([], Except.error errNoDb) :=
  ⟨(fatalCrawlFailure envCrawlFails optsW 1 false).1 { id := 7 } errBoom rfl rfl rfl,
    (fatalCrawlFailure envCreateFails optsW 1 false).2 errNoDb rfl⟩

/-- Claim C1: per-link failure isolation.  When scan creation, the
crawl and the finalization succeed, the run returns a result whatever
the per-link oracles do: its finding list is exactly the list of
findings of the iterations that completed without a throw (in order),
the scan is recorded completed, and no failed mark is ever recorded, so
one thrown iteration skips only its own link and never aborts the
batch. -/
theorem perLinkFailureIsolation (env : Env) (options : CheckOptionsModel)
    (websiteId : Nat) (includeWayback : Bool)
    (scanRecord : ScanRecord) (crawlResult : CrawlResult)
    (h1 : env.createScanResult = Except.ok scanRecord)
    (h2 : env.check = Except.ok crawlResult)
    (h3 : env.completeScanResult = Except.ok ()) :
    okFindings (checkWithIntelligence env options websiteId includeWayback).2
        = some (collectFindings env options.path includeWayback 0
            (crawlResult.links.filter (fun l => l.state = LinkState.broken)))
      ∧ Event.scanCompleted ∈ (checkWithIntelligence env options websiteId includeWayback).1
      ∧ ∀ m, Event.scanMarkedFailed m ∉
          (checkWithIntelligence env options websiteId includeWayback).1 := by
  have hrun : checkWithIntelligence env options websiteId includeWayback
      = (expectedDelays env options.path includeWayback 0
            (crawlResult.links.filter (fun l => l.state = LinkState.broken))
          ++ [Event.scanCompleted],
        Except.ok
          { passed := crawlResult.passed,
            links := crawlResult.links,
            scanId := scanRecord.id,
            websiteId := websiteId,
            totalLinks := crawlResult.links.length,
            brokenLinksCount :=
              (crawlResult.links.filter (fun l => l.state = LinkState.broken)).length,
            healthScore := calculateHealthScore crawlResult.links.length
              (crawlResult.links.filter (fun l => l.state = LinkState.broken)).length,
            brokenLinksWithAI := collectFindings env options.path includeWayback 0
              (crawlResult.links.filter (fun l => l.state = LinkState.broken)),
            scanDuration := env.elapsedMs }) := by
    simp [checkWithIntelligence, h1, h2, h3, processLoop_eq]
  refine ⟨?_, ?_, ?_⟩
  · rw [hrun]
    rfl
  · rw [hrun]
    simp
  · intro m
    rw [hrun]
    simp only [List.mem_append, List.mem_singleton, not_or]
    constructor
    · intro hm
      have hd := expectedDelays_all_delay env options.path includeWayback
        (crawlResult.links.filter (fun l => l.state = LinkState.broken)) 0
        (Event.scanMarkedFailed m) hm
      exact Event.noConfusion hd
    · intro hm
      exact Event.noConfusion hm

/-- Witness for claim C1: in the concrete three-link batch whose second
persistence update throws, the run returns exactly the findings of the
first and third links (database ids 100 and 102), records completion,
and records no failure. -/
theorem perLinkFailureIsolation_witness :
    (okFindings (checkWithIntelligence envPersistFails optsW 1 false).2
        = some (collectFindings envPersistFails optsW.path false 0
            (crawlThree.links.filter (fun l => l.state = LinkState.broken)))
      ∧ Event.scanCompleted ∈ (checkWithIntelligence envPersistFails optsW 1 false).1
      ∧ ∀ m, Event.scanMarkedFailed m ∉
          (checkWithIntelligence envPersistFails optsW 1 false).1)
    ∧ (collectFindings envPersistFails optsW.path false 0
        (crawlThree.links.filter (fun l => l.state = LinkState.broken))).map
          (fun f => f.dbId) = [100, 102] :=
  ⟨perLinkFailureIsolation envPersistFails optsW 1 false { id := 3 } crawlThree
      rfl rfl rfl,
    by decide⟩

/-- Claim C8 as amended: under successful scan creation, crawl and
finalization, the event trace of the run is exactly one thousand
milliseconds of delay after every non-final iteration of the per-link
loop that completed without a throw, followed by the completion mark; a
non-final iteration aborted by the per-link failure boundary is not
followed by the delay, because the source executes the delay inside the
per-link try block after the push. -/
theorem rateLimitDelays (env : Env) (options : CheckOptionsModel)
    (websiteId : Nat) (includeWayback : Bool)
    (scanRecord : ScanRecord) (crawlResult : CrawlResult)
    (h1 : env.createScanResult = Except.ok scanRecord)
    (h2 : env.check = Except.ok crawlResult)
    (h3 : env.completeScanResult = Except.ok ()) :
    (checkWithIntelligence env options websiteId includeWayback).1
      = expectedDelays env options.path includeWayback 0
          (crawlResult.links.filter (fun l => l.state = LinkState.broken))
        ++ [Event.scanCompleted] := by
  simp [checkWithIntelligence, h1, h2, h3, processLoop_eq]

/-- Witness for the amended claim C8: in the concrete three-link batch
whose second persistence update throws, the trace is the delay list
followed by the completion mark, and that delay list holds exactly one
delay (after the first link; the thrown second iteration produced
none, and the third was final). -/
theorem rateLimitDelays_witness :
    (checkWithIntelligence envPersistFails optsW 1 false).1
        = expectedDelays envPersistFails optsW.path false 0
            (crawlThree.links.filter (fun l => l.state = LinkState.broken))
          ++ [Event.scanCompleted]
    ∧ expectedDelays envPersistFails optsW.path false 0
        (crawlThree.links.filter (fun l => l.state = LinkState.broken))
      = [Event.delayMs 1000] :=
  ⟨rateLimitDelays envPersistFails optsW 1 false { id := 3 } crawlThree rfl rfl rfl,
    by decide⟩

/-- Counterexample to claim C8 as stated: a batch of two broken links
in which the first (non-final) iteration throws during persistence; the
claim requires a delay after every non-final iteration, but the trace
of the run contains no delay event at all, because the source places
the delay inside the per-link try block and the throw skips it. -/
theorem rateLimitDelays_counterexample :
    (checkWithIntelligence envDelaySkip optsW 1 false).1 = [Event.scanCompleted]
    ∧ (crawlTwo.links.filter (fun l => l.state = LinkState.broken)).length = 2 := by
  constructor
  · rfl
  · rfl

set_option maxRecDepth 8000 in
/-- Claim C2 as amended: the health score is 100 whenever the total
link count is 0, regardless of the broken count; otherwise it is
Math.round of the IEEE-754 binary64 evaluation of (1 minus broken over
total) times 100, clamped to the interval from 0 to 100; and the three
concrete cases of the specification hold: 10 links with 1 broken give
90, 10 with 10 broken give 0, 3 with 1 broken give 67.  The double
evaluation replaces the exact formula of the claim as stated, which the
source program does not satisfy. -/
theorem calculateHealthScore_amended :
    (∀ b, calculateHealthScore 0 b = 100)
    ∧ (∀ t b, t ≠ 0 →
        calculateHealthScore t b
          = max 0 (min 100 (dyMathRound
              (dyMul (dySub (dyOfNat 1) (dyDiv (dyOfNat b) (dyOfNat t)))
                (dyOfNat 100)))))
    ∧ calculateHealthScore 10 1 = 90
    ∧ calculateHealthScore 10 10 = 0
    ∧ calculateHealthScore 3 1 = 67 := by
  refine ⟨fun b => rfl, fun t b ht => by simp [calculateHealthScore, ht], ?_, ?_, ?_⟩
  · decide
  · decide
  · decide

/-- Witness for the amended claim C2: the nonzero-total branch
evaluated at 4 links with 1 broken. -/
theorem calculateHealthScore_amended_witness :
    calculateHealthScore 4 1
      = max 0 (min 100 (dyMathRound
          (dyMul (dySub (dyOfNat 1) (dyDiv (dyOfNat 1) (dyOfNat 4)))
            (dyOfNat 100)))) :=
  calculateHealthScore_amended.2.1 4 1 (by decide)

set_option maxRecDepth 8000 in
/-- Counterexample to claim C2 as stated: at 40 total links with 17
broken the program divides, subtracts and multiplies in binary64, where
17 over 40 rounds to slightly below 0.425 and the final product to
slightly below 57.5, so Math.round returns 57; the exact formula
round((1 minus 17 over 40) times 100) of the claim gives round(57.5)
equal to 58. -/
theorem calculateHealthScore_counterexample :
    calculateHealthScore 40 17 = 57
    ∧ max 0 (min 100 (jsRound ((1 - (17 : ℚ) / (40 : ℚ)) * 100))) = 58 := by
  constructor
  · decide
  · norm_num [jsRound]

/-- Claim C6 as amended: the wayback check never throws (it is a total
function of the fetch outcome) and returns the closest snapshot url
exactly when the response is successful, its body parses, the available
flag of the closest snapshot equals true, and the url field is present
and nonempty; any transport error, non-ok response, parse failure or
missing field yields none.  The nonemptiness condition is the
correction: the source returns url shortCircuitOr null, and the empty
string is falsy. -/
theorem checkWaybackMachine_spec (fetched : FetchOutcome) :
    checkWaybackMachine fetched = waybackSpecResult fetched := by
  cases fetched with
  | transportError m => rfl
  | response okFlag body =>
    cases okFlag with
    | false => rfl
    | true =>
      cases body with
      | error e => rfl
      | ok data =>
        obtain ⟨snaps⟩ := data
        cases snaps with
        | none => rfl
        | some s =>
          obtain ⟨cl⟩ := s
          cases cl with
          | none => rfl
          | some c =>
            obtain ⟨u, av⟩ := c
            cases av with
            | none => rfl
            | some b =>
              cases b with
              | false => rfl
              | true =>
                cases u with
                | none => rfl
                | some s2 => rfl

/-- Counterexample to claim C6 as stated: a successful response whose
closest snapshot is marked available and whose url field is present but
empty.  The claim as stated requires the snapshot url (the empty
string) to be returned, but the source evaluates url shortCircuitOr
null and the empty string is falsy, so the check returns none. -/
theorem checkWaybackMachine_counterexample :
    checkWaybackMachine (FetchOutcome.response true (Except.ok emptyUrlBody)) = none
    ∧ emptyUrlBody = { archived_snapshots := some { closest := some { url := some "", available := some true } } }
    ∧ (some "" : Option String).isSome = true :=
  ⟨rfl, rfl, rfl⟩

/- Lemmas for the suggested-fix bound. -/

lemma withWayback_fixes (env : Env) (wb : Bool) (i : Nat)
    (a : LinkAnalysisResult) (ha : a.suggestedFixes.length ≤ 3) :
    (withWayback env wb i a).suggestedFixes.length ≤ 4 := by
  unfold withWayback
  cases wb with
  | false => exact Nat.le_succ_of_le ha
  | true =>
    cases checkWaybackMachine (env.fetchWayback i) with
    | none => exact Nat.le_succ_of_le ha
    | some w => simpa using Nat.succ_le_succ ha

lemma processLink_fixes (env : Env) (path : String) (wb : Bool) (i : Nat)
    (link : LinkResult) (f : BrokenLinkWithAI)
    (hA : ∀ input res, env.analyzeContext i input = Except.ok res →
      res.suggestedFixes.length ≤ 3)
    (hf : processLink env path wb i link = some f) :
    f.aiAnalysis.suggestedFixes.length ≤ 4 := by
  unfold processLink at hf
  cases hx : env.analyzeContext i (mkAiInput env path link) with
  | error e => rw [hx] at hf; exact absurd hf (by simp)
  | ok a =>
    rw [hx] at hf
    cases hc : env.createBrokenLink i with
    | error e => rw [hc] at hf; exact absurd hf (by simp)
    | ok recordId =>
      rw [hc] at hf
      cases hu : env.updateBrokenLinkWithAI i with
      | error e => rw [hu] at hf; exact absurd hf (by simp)
      | ok u =>
        rw [hu] at hf
        simp only [Option.some.injEq] at hf
        rw [← hf]
        exact withWayback_fixes env wb i a (hA _ _ hx)

lemma collectFindings_fixes (env : Env) (path : String) (wb : Bool)
    (hA : ∀ i input res, env.analyzeContext i input = Except.ok res →
      res.suggestedFixes.length ≤ 3) :
    ∀ (links : List LinkResult) (i : Nat) (f : BrokenLinkWithAI),
      f ∈ collectFindings env path wb i links →
      f.aiAnalysis.suggestedFixes.length ≤ 4 := by
  intro links
  induction links with
  | nil => intro i f hf; simp [collectFindings] at hf
  | cons link rest ih =>
    intro i f hf
    unfold collectFindings at hf
    cases hx : processLink env path wb i link with
    | some g =>
      rw [hx] at hf
      rcases List.mem_cons.mp hf with hfg | hfr
      · exact hfg ▸ processLink_fixes env path wb i link g (hA i) hx
      · exact ih (i + 1) f hfr
    | none =>
      rw [hx] at hf
      exact ih (i + 1) f hf

/-- Claim C5 as amended: for every run whose analyzer outputs satisfy
the at-most-3 contract, every analysis carried in the returned findings
has at most 4 suggested fixes: the analyzer bound of 3 plus at most one
archive snapshot url that the orchestrator unshifts onto the list when
the wayback lookup is enabled.  The bound 4 is reached, so the at-most-3
invariant of the specification does not survive the unshift. -/
theorem suggestedFixesBound (env : Env) (options : CheckOptionsModel)
    (websiteId : Nat) (includeWayback : Bool)
    (hA : ∀ i input res, env.analyzeContext i input = Except.ok res →
      res.suggestedFixes.length ≤ 3) :
    (findingFixLengths (checkWithIntelligence env options websiteId includeWayback).2).all
      (fun n => n ≤ 4) = true := by
  unfold checkWithIntelligence
  cases h1 : env.createScanResult with
  | error e => rfl
  | ok scanRecord =>
    cases h2 : env.check with
    | error e =>
      cases h4 : env.failUpdate with
      | error e2 => rfl
      | ok u => rfl
    | ok crawlResult =>
      cases h3 : env.completeScanResult with
      | error e =>
        cases h4 : env.failUpdate with
        | error e2 => rfl
        | ok u => rfl
      | ok u =>
        simp only [findingFixLengths, processLoop_eq]
        rw [List.all_eq_true]
        intro n hn
        simp only [List.mem_map] at hn
        obtain ⟨f, hf, hfn⟩ := hn
        have := collectFindings_fixes env options.path includeWayback hA _ 0 f hf
        simp only [← hfn]
        exact decide_eq_true this

/-- Witness for the amended claim C5: the wayback scenario satisfies
the analyzer contract, so every finding of its run carries at most 4
suggested fixes. -/
theorem suggestedFixesBound_witness :
    (findingFixLengths (checkWithIntelligence envWayback optsW 1 true).2).all
      (fun n => n ≤ 4) = true :=
  suggestedFixesBound envWayback optsW 1 true (by
    intro i input res h
    have h2 : Except.ok (ε := Err) fixes3Analysis = Except.ok res := h
    injection h2 with h3
    rw [← h3]
    decide)

/-- Counterexample to claim C5 as stated: in the wayback scenario the
analyzer returns exactly 3 suggested fixes (its contract maximum), the
archive lookup returns a snapshot, and the single returned finding
carries 4 suggested fixes, exceeding the claimed bound of 3. -/
theorem suggestedFixes_counterexample :
    findingFixLengths (checkWithIntelligence envWayback optsW 1 true).2 = [4]
    ∧ fixes3Analysis.suggestedFixes.length = 3 :=
  ⟨rfl, rfl⟩

/- Lemmas about the stable display sort of the report. -/

lemma mem_insertByPriorityDesc (x : BrokenLinkWithAI) :
    ∀ (l : List BrokenLinkWithAI) (z : BrokenLinkWithAI),
      z ∈ insertByPriorityDesc x l ↔ z = x ∨ z ∈ l := by
  intro l
  induction l with
  | nil => intro z; simp [insertByPriorityDesc]
  | cons y ys ih =>
    intro z
    unfold insertByPriorityDesc
    by_cases hc : y.aiAnalysis.priorityScore ≤ x.aiAnalysis.priorityScore
    · rw [if_pos hc]
      simp [or_comm, or_assoc, or_left_comm]
    · rw [if_neg hc]
      simp only [List.mem_cons, ih]
      tauto

lemma pairwise_insertByPriorityDesc (x : BrokenLinkWithAI) :
    ∀ (l : List BrokenLinkWithAI),
      List.Pairwise
        (fun a b => b.aiAnalysis.priorityScore ≤ a.aiAnalysis.priorityScore) l →
      List.Pairwise
        (fun a b => b.aiAnalysis.priorityScore ≤ a.aiAnalysis.priorityScore)
        (insertByPriorityDesc x l) := by
  intro l
  induction l with
  | nil => intro _; simp [insertByPriorityDesc]
  | cons y ys ih =>
    intro h
    rw [List.pairwise_cons] at h
    obtain ⟨hy, hys⟩ := h
    unfold insertByPriorityDesc
    by_cases hc : y.aiAnalysis.priorityScore ≤ x.aiAnalysis.priorityScore
    · rw [if_pos hc]
      rw [List.pairwise_cons]
      constructor
      · intro z hz
        rcases List.mem_cons.mp hz with hz1 | hz2
        · exact hz1 ▸ hc
        · exact (hy z hz2).trans hc
      · rw [List.pairwise_cons]
        exact ⟨hy, hys⟩
    · rw [if_neg hc]
      rw [List.pairwise_cons]
      constructor
      · intro z hz
        rcases (mem_insertByPriorityDesc x ys z).mp hz with hz1 | hz2
        · exact hz1 ▸ le_of_not_le hc
        · exact hy z hz2
      · exact ih hys

lemma sortFindings_pairwise (l : List BrokenLinkWithAI) :
    List.Pairwise
      (fun a b => b.aiAnalysis.priorityScore ≤ a.aiAnalysis.priorityScore)
      (sortFindings l) := by
  induction l with
  | nil => simp [sortFindings]
  | cons x xs ih => exact pairwise_insertByPriorityDesc x (sortFindings xs) ih

lemma filter_insertByPriorityDesc (x : BrokenLinkWithAI) (k : Int) :
    ∀ (l : List BrokenLinkWithAI),
      (insertByPriorityDesc x l).filter (fun f => f.aiAnalysis.priorityScore = k)
        = if x.aiAnalysis.priorityScore = k
          then x :: l.filter (fun f => f.aiAnalysis.priorityScore = k)
          else l.filter (fun f => f.aiAnalysis.priorityScore = k) := by
  intro l
  induction l with
  | nil =>
    by_cases hk : x.aiAnalysis.priorityScore = k <;>
      simp [insertByPriorityDesc, List.filter, hk]
  | cons y ys ih =>
    unfold insertByPriorityDesc
    by_cases hc : y.aiAnalysis.priorityScore ≤ x.aiAnalysis.priorityScore
    · rw [if_pos hc]
      by_cases hk : x.aiAnalysis.priorityScore = k <;>
        by_cases hyk : y.aiAnalysis.priorityScore = k <;>
          simp [List.filter_cons, hk, hyk]
    · rw [if_neg hc]
      by_cases hk : x.aiAnalysis.priorityScore = k
      · have hyk : ¬ y.aiAnalysis.priorityScore = k := by
          intro hyk
          exact hc (le_of_eq (hyk.trans hk.symm))
        simp [List.filter_cons, hk, hyk, ih]
      · by_cases hyk : y.aiAnalysis.priorityScore = k <;>
          simp [List.filter_cons, hk, hyk, ih]

lemma sortFindings_filter (l : List BrokenLinkWithAI) (k : Int) :
    (sortFindings l).filter (fun f => f.aiAnalysis.priorityScore = k)
      = l.filter (fun f => f.aiAnalysis.priorityScore = k) := by
  induction l with
  | nil => rfl
  | cons x xs ih =>
    unfold sortFindings
    rw [filter_insertByPriorityDesc]
    by_cases hk : x.aiAnalysis.priorityScore = k <;> simp [List.filter_cons, hk, ih]

lemma insertByPriorityDesc_length (x : BrokenLinkWithAI) :
    ∀ (l : List BrokenLinkWithAI), (insertByPriorityDesc x l).length = l.length + 1 := by
  intro l
  induction l with
  | nil => rfl
  | cons y ys ih =>
    unfold insertByPriorityDesc
    by_cases hc : y.aiAnalysis.priorityScore ≤ x.aiAnalysis.priorityScore
    · rw [if_pos hc]; rfl
    · rw [if_neg hc]; simp [ih]

lemma sortFindings_length (l : List BrokenLinkWithAI) :
    (sortFindings l).length = l.length := by
  induction l with
  | nil => rfl
  | cons x xs ih => simp [sortFindings, insertByPriorityDesc_length, ih]

/-- Claim C9: the rendered report is a pure function of the scan result
(it is a function in this model); it consists of the summary block
followed by the finding blocks over the display sort and the footer;
the display sort is in non-increasing priority-score order; and
findings of equal score keep their relative input order (for every
score the filtered subsequence of the sorted list equals that of the
input list). -/
theorem reportOrdering (r : IntelligentScanResult) :
    generateReport r
        = reportSummaryBlock r
          ++ reportFindingsSection (sortFindings r.brokenLinksWithAI) r.totalLinks
          ++ reportFooter
    ∧ List.Pairwise
        (fun a b => b.aiAnalysis.priorityScore ≤ a.aiAnalysis.priorityScore)
        (sortFindings r.brokenLinksWithAI)
    ∧ ∀ k, (sortFindings r.brokenLinksWithAI).filter
          (fun f => f.aiAnalysis.priorityScore = k)
        = r.brokenLinksWithAI.filter (fun f => f.aiAnalysis.priorityScore = k) := by
  refine ⟨?_, sortFindings_pairwise r.brokenLinksWithAI,
    fun k => sortFindings_filter r.brokenLinksWithAI k⟩
  simp [generateReport, reportFindingsSection, sortFindings_length, String.append_assoc]

/- Lemma: the report text of the heap renderer depends only on the
scalar fields and the content of the finding array, not on the rest of
the heap. -/

lemma generateReportRef_pure (h : FindingsHeap) (r : ScanResultRef) :
    (generateReportRef h r).2
      = reportSummaryCore r.totalLinks r.brokenLinksCount r.healthScore
          r.scanDuration r.scanId
        ++ (if (h.arrays r.findingsRef).length > 0
            then reportBrokenSection (sortFindings (h.arrays r.findingsRef))
            else reportNoBroken r.totalLinks)
        ++ reportFooter := by
  unfold generateReportRef heapAlloc heapWrite
  simp

/-- Claim C10: rendering does not mutate the scan result.  In the heap
model of JavaScript array references, for every valid finding-array
reference, the heap cell of the scan result holds the same finding list
in the same order after generateReport returns (the display sort
mutates only the fresh spread copy), and a repeated rendering yields
the same report text. -/
theorem generateReportFrame (h : FindingsHeap) (r : ScanResultRef)
    (hvalid : r.findingsRef < h.next) :
    (generateReportRef h r).1.arrays r.findingsRef = h.arrays r.findingsRef
    ∧ (generateReportRef ((generateReportRef h r).1) r).2
      = (generateReportRef h r).2 := by
  have hne : r.findingsRef ≠ h.next := Nat.ne_of_lt hvalid
  have hframe : (generateReportRef h r).1.arrays r.findingsRef
      = h.arrays r.findingsRef := by
    unfold generateReportRef heapAlloc heapWrite
    simp [hne]
  refine ⟨hframe, ?_⟩
  rw [generateReportRef_pure, generateReportRef_pure, hframe]

/-- Witness for claim C10: the concrete one-finding heap at reference 0
is unchanged at that reference by rendering, and rendering twice gives
the same text. -/
theorem generateReportFrame_witness :
    (generateReportRef heapW refW).1.arrays refW.findingsRef
        = heapW.arrays refW.findingsRef
    ∧ (generateReportRef ((generateReportRef heapW refW).1) refW).2
      = (generateReportRef heapW refW).2 :=
  generateReportFrame heapW refW (by decide)
